import Mathlib

/-!
# EANet notebook (examples/vision/eanet): a verification development

This file embeds the computational content of the EANet notebook
(`PatchExtract`, `PatchEmbedding`, `external_attention`, `mlp`,
`transformer_encoder`, `get_model`) in Lean 4 and proves properties of the
embedding.

Two levels of embedding are used:

* a *shape level*, where a tensor is represented by its shape, a
  `List ℕ` of dimensions, and each framework layer is given its shape
  semantics (`Dense` replaces the last axis by its unit count,
  `tf.reshape` checks element counts, `tf.transpose` permutes axes, …);
  fallible operations (failed assertions, invalid reshapes, Python
  division by zero) return `Option`;

* a *value level* over `ℝ`, where a rank-3 tensor is a function
  `ℕ → ℕ → ℕ → ℝ` of its indices (shape kept implicit; statements
  quantify over in-range indices), `Dense` is an affine map over the last
  axis, `Softmax`/`LayerNormalization`/`gelu` use `Real.exp`, `Real.sqrt`
  and an error-function integral, and `Dropout` takes its Bernoulli mask
  as an explicit argument, so that stochasticity is explicit.
-/

namespace EANet

/-! ## Shape-level model of the framework layers -/

/-- Shape semantics of `layers.Dense(units)`: a `Dense` layer acts on the
last axis, replacing its extent by `units`. -/
def denseShape (units : ℕ) (s : List ℕ) : List ℕ := s.dropLast ++ [units]

/-- Shape semantics of `tf.transpose(x, perm=[0, 2, 1, 3])` on a rank-4
tensor: swap the two middle axes. -/
def transpose0213 : List ℕ → List ℕ
  | [a, b, c, d] => [a, c, b, d]
  | s => s

/-- Shape semantics of `tf.reshape(x, (-1, rest...))`: the leading `-1`
is inferred from the element count; TensorFlow raises an error if the
remaining dimensions do not divide the element count (or are themselves
zero, making the inference ambiguous). -/
def reshapeInfer (rest : List ℕ) (s : List ℕ) : Option (List ℕ) :=
  if 0 < rest.prod ∧ rest.prod ∣ s.prod then some (s.prod / rest.prod :: rest) else none

/-- Shape semantics of `layers.add([a, b])`: element-wise addition
requires equal shapes and preserves them. -/
def addShape (a b : List ℕ) : Option (List ℕ) :=
  if a = b then some a else none

/-- Shape semantics of `layers.MultiHeadAttention(...)(x, x)`
(self-attention with query = value = `x`): with the default
`output_shape=None` the output shape equals the query shape. -/
def mhaShape (query : List ℕ) : List ℕ := query

/-! ## Shape-level model of `external_attention` -/

/-- The unit count of the `M_v` dense layer in `external_attention`
(and equally the head width used in the first reshape): the source
expression `dim * dim_coefficient // num_heads`, evaluated *after* the
reassignment `num_heads = num_heads * dim_coefficient`, so with the
caller's head count `num_heads` it reads
`dim * dim_coefficient / (num_heads * dim_coefficient)`. -/
def mvUnits (dim num_heads dim_coefficient : ℕ) : ℕ :=
  dim * dim_coefficient / (num_heads * dim_coefficient)

/-- Shape-level embedding of `external_attention(x, dim, num_heads,
dim_coefficient, ...)` on an input of shape `[B, num_patch, dim]`.

Follows the source line by line: the `assert dim % num_heads == 0`
(a failed assertion aborts construction, modelled as `none`; Python's
`%` and `//` by zero raise `ZeroDivisionError`, also `none`), the
reassignment `num_heads = num_heads * dim_coefficient`, `Dense(dim *
dim_coefficient)`, `tf.reshape` to `(-1, num_patch, num_heads, dim *
dim_coefficient // num_heads)`, `tf.transpose([0, 2, 1, 3])`, the `M_k`
layer `Dense(dim // dim_coefficient)`, `Softmax` / double-normalization /
`Dropout` (shape-preserving), the `M_v` layer `Dense(dim *
dim_coefficient // num_heads)`, `tf.transpose([0, 2, 1, 3])`,
`tf.reshape` to `(-1, num_patch, dim * dim_coefficient)`, and the final
`Dense(dim)` (`Dropout` again shape-preserving). -/
def externalAttentionShape (B num_patch dim num_heads dim_coefficient : ℕ) :
    Option (List ℕ) :=
  if num_heads = 0 then none
  else if dim % num_heads ≠ 0 then none
  else if num_heads * dim_coefficient = 0 then none
  else
    let s1 := denseShape (dim * dim_coefficient) [B, num_patch, dim]
    (reshapeInfer [num_patch, num_heads * dim_coefficient,
        mvUnits dim num_heads dim_coefficient] s1).bind fun s2 =>
    let s3 := transpose0213 s2
    let s4 := denseShape (dim / dim_coefficient) s3
    let s5 := denseShape (mvUnits dim num_heads dim_coefficient) s4
    let s6 := transpose0213 s5
    (reshapeInfer [num_patch, dim * dim_coefficient] s6).bind fun s7 =>
    some (denseShape dim s7)

/-! ## Shape-level model of `mlp` and `transformer_encoder` -/

/-- Shape-level embedding of `mlp(x, embedding_dim, mlp_dim)`:
`Dense(mlp_dim)` with `gelu`, `Dropout`, `Dense(embedding_dim)`,
`Dropout`. -/
def mlpShape (embedding_dim mlp_dim : ℕ) (s : List ℕ) : List ℕ :=
  denseShape embedding_dim (denseShape mlp_dim s)

/-- Shape-level embedding of `transformer_encoder(x, embedding_dim,
mlp_dim, num_heads, dim_coefficient, ..., attention_type)` on an input of
shape `[B, num_patch, embedding_dim]`.  `LayerNormalization` preserves
shape; the attention stage is dispatched on the `attention_type` string
(`if` / `elif`, with *no* `else` branch: any other string leaves `x`
untouched); each residual `layers.add` requires equal shapes. -/
def transformerEncoderShape (B num_patch embedding_dim mlp_dim num_heads
    dim_coefficient : ℕ) (attention_type : String) : Option (List ℕ) :=
  let s0 : List ℕ := [B, num_patch, embedding_dim]
  let attn : Option (List ℕ) :=
    if attention_type = "external_attention" then
      externalAttentionShape B num_patch embedding_dim num_heads dim_coefficient
    else if attention_type = "self_attention" then
      some (mhaShape s0)
    else
      some s0
  attn.bind fun s1 =>
  (addShape s1 s0).bind fun s2 =>
  (addShape (mlpShape embedding_dim mlp_dim s2) s2).bind fun s3 =>
  some s3

/-! ## Shape-level lemmas -/

lemma reshapeInfer_eq (rest s : List ℕ) (B : ℕ) (h1 : 0 < rest.prod)
    (h2 : s.prod = B * rest.prod) :
    reshapeInfer rest s = some (B :: rest) := by
  unfold reshapeInfer
  rw [if_pos ⟨h1, ⟨B, by rw [h2]; ring⟩⟩, h2, Nat.mul_div_cancel _ h1]

/-- Core shape computation for `external_attention`: with positive
dimensions and `num_heads ∣ dim`, the pipeline goes through and returns
the input shape. -/
lemma externalAttentionShape_of_dvd (B N d H k : ℕ)
    (hN : 0 < N) (hd : 0 < d) (hH : 0 < H) (hk : 0 < k) (hdvd : H ∣ d) :
    externalAttentionShape B N d H k = some [B, N, d] := by
  obtain ⟨m, rfl⟩ := hdvd
  have hm : 0 < m := by
    rcases Nat.eq_zero_or_pos m with h | h
    · subst h; omega
    · exact h
  have hHk : 0 < H * k := Nat.mul_pos hH hk
  have hmv : mvUnits (H * m) H k = m := by
    unfold mvUnits
    rw [show H * m * k = H * k * m by ring, Nat.mul_div_cancel_left m hHk]
  unfold externalAttentionShape
  rw [if_neg hH.ne', if_neg (by simp [Nat.mul_mod_right]), if_neg hHk.ne']
  have h1 : reshapeInfer [N, H * k, mvUnits (H * m) H k]
      (denseShape (H * m * k) [B, N, H * m]) = some [B, N, H * k, m] := by
    rw [hmv]
    exact reshapeInfer_eq _ _ B
      (by simp only [List.prod_cons, List.prod_nil, mul_one]; positivity)
      (by simp only [denseShape, List.dropLast, List.append_eq, List.prod_cons,
            List.prod_nil, List.prod_append, mul_one, one_mul]
          ring)
  have h2 : reshapeInfer [N, H * m * k]
      (transpose0213 (denseShape (mvUnits (H * m) H k)
        (denseShape (H * m / k) (transpose0213 [B, N, H * k, m])))) =
      some [B, N, H * m * k] := by
    rw [hmv]
    exact reshapeInfer_eq _ _ B
      (by simp only [List.prod_cons, List.prod_nil, mul_one]; positivity)
      (by simp only [transpose0213, denseShape, List.dropLast, List.append_eq,
            List.cons_append, List.nil_append,
            List.prod_cons, List.prod_nil, List.prod_append, mul_one, one_mul]
          ring)
  simp only [h1, h2, Option.some_bind]
  rfl

/-- When `dim % num_heads ≠ 0` the assertion fires and construction
aborts. -/
lemma externalAttentionShape_of_not_dvd (B N d H k : ℕ)
    (h : d % H ≠ 0) :
    externalAttentionShape B N d H k = none := by
  unfold externalAttentionShape
  by_cases hH : H = 0
  · subst hH
    simp only [Nat.mod_zero] at h
    rw [if_pos rfl]
  · rw [if_neg hH, if_pos h]

/-! ## Claim theorems: shapes of `external_attention` -/

/-- Claim C1. For every valid input of shape `(N, d)` — positive `N`, `d`,
head count `H` and dimension coefficient `k`, with `d` divisible by `H` —
the `external_attention` transform returns a tensor whose shape equals
the input shape `[B, N, d]`. -/
theorem external_attention_preserves_shape (B N d H k : ℕ)
    (hN : 0 < N) (hd : 0 < d) (hH : 0 < H) (hk : 0 < k) (hdvd : H ∣ d) :
    externalAttentionShape B N d H k = some [B, N, d] :=
  externalAttentionShape_of_dvd B N d H k hN hd hH hk hdvd

/-- Witness for C1 at the notebook's configuration: batch 1, 256
patches, `embedding_dim = 64`, `num_heads = 4`, `dim_coefficient = 4`. -/
theorem external_attention_preserves_shape_witness :
    externalAttentionShape 1 256 64 4 4 = some [1, 256, 64] :=
  external_attention_preserves_shape 1 256 64 4 4 (by decide) (by decide)
    (by decide) (by decide) (by decide)

/-- Claim C2, counterexample. The claim says the `M_v` layer expands each
head back to width `(d·k)/H` with `H` the caller's head count; at the
notebook configuration `d = 64`, `H = 4`, `k = 4` that formula gives
`64·4/4 = 64`, but the code's `M_v` unit count (`dim * dim_coefficient //
num_heads` evaluated after `num_heads = num_heads * dim_coefficient`) is
`16`. -/
theorem mv_units_not_caller_heads :
    mvUnits 64 4 4 = 16 ∧ 64 * 4 / 4 = 64 ∧ (16 : ℕ) ≠ 64 := by decide

/-- Claim C2, amended. The `M_v` layer expands each head back to width
`(d·k)/(H·k) = d/H`, where `H·k` is the head count *after* the
reassignment `num_heads = num_heads * dim_coefficient` — not `(d·k)/H`
with the caller's head count. -/
theorem mv_units_eq_dim_div_heads (d H k : ℕ) (hk : 0 < k) :
    mvUnits d H k = d / H := by
  unfold mvUnits
  exact Nat.mul_div_mul_right d H hk

/-- Witness for the amended C2 at the notebook configuration. -/
theorem mv_units_eq_dim_div_heads_witness :
    mvUnits 64 4 4 = 64 / 4 :=
  mv_units_eq_dim_div_heads 64 4 4 (by decide)

/-- Claim C7. Construction of `external_attention` fails exactly when the
embedding dimension is not divisible by the head count (for positive
dimensions; the single `assert dim % num_heads == 0` is the only guard):
with `embedding_dim = 64`, `num_heads = 4` the assertion holds and
construction succeeds, while with `embedding_dim = 65`, `num_heads = 4`
it aborts. -/
theorem external_attention_assertion_iff :
    (∀ B N d H k : ℕ, 0 < N → 0 < d → 0 < H → 0 < k →
      ((externalAttentionShape B N d H k).isSome ↔ d % H = 0)) ∧
    externalAttentionShape 1 256 64 4 4 = some [1, 256, 64] ∧
    externalAttentionShape 1 256 65 4 4 = none := by
  refine ⟨fun B N d H k hN hd hH hk => ?_, by decide, by decide⟩
  constructor
  · intro hsome
    by_contra h
    rw [externalAttentionShape_of_not_dvd B N d H k h] at hsome
    simp at hsome
  · intro h
    rw [externalAttentionShape_of_dvd B N d H k hN hd hH hk
      (Nat.dvd_of_mod_eq_zero h)]
    rfl

/-- Witness for C7's universally quantified part, at `d = 64`, `H = 4`
and at `d = 65`, `H = 4`. -/
theorem external_attention_assertion_iff_witness :
    ((externalAttentionShape 1 256 64 4 4).isSome ↔ 64 % 4 = 0) ∧
    ((externalAttentionShape 1 256 65 4 4).isSome ↔ 65 % 4 = 0) :=
  ⟨external_attention_assertion_iff.1 1 256 64 4 4 (by decide) (by decide)
      (by decide) (by decide),
   external_attention_assertion_iff.1 1 256 65 4 4 (by decide) (by decide)
      (by decide) (by decide)⟩

/-! ## Value-level model

Tensors are functions of their integer indices (shape implicit; theorems
quantify over in-range indices).  Stochastic layers (`Dropout`) take
their Bernoulli keep-mask as an explicit argument, so randomness is an
explicit input of the forward pass. -/

/-- Rank-3 tensor `(batch, position, feature)`. -/
abbrev T3 : Type := ℕ → ℕ → ℕ → ℝ

/-- Rank-4 tensor `(batch, head, position, feature)`. -/
abbrev T4 : Type := ℕ → ℕ → ℕ → ℕ → ℝ

abbrev Mask3 : Type := ℕ → ℕ → ℕ → Bool

abbrev Mask4 : Type := ℕ → ℕ → ℕ → ℕ → Bool

noncomputable section

/-- Value semantics of `layers.Dense(units)` on a rank-3 tensor: affine map over the last
axis, whose input extent is `din`; kernel `W`, bias `bias`. -/
def dense3 (din : ℕ) (W : ℕ → ℕ → ℝ) (bias : ℕ → ℝ) (x : T3) : T3 :=
  fun a i u => (∑ j ∈ Finset.range din, x a i j * W j u) + bias u

/-- Value semantics of `layers.Dense(units)` on a rank-4 tensor. -/
def dense4 (din : ℕ) (W : ℕ → ℕ → ℝ) (bias : ℕ → ℝ) (x : T4) : T4 :=
  fun a h i u => (∑ j ∈ Finset.range din, x a h i j * W j u) + bias u

/-- Value semantics of `layers.Softmax(axis=2)` on a rank-4 tensor whose axis 2 (the patch
axis) has extent `N`. -/
def softmaxAxis2 (N : ℕ) (x : T4) : T4 :=
  fun b h i j => Real.exp (x b h i j) / ∑ i' ∈ Finset.range N, Real.exp (x b h i' j)

/-- The double-normalization step
`attn / (1e-9 + tf.reduce_sum(attn, axis=-1, keepdims=True))`, where the
last axis has extent `m`. -/
def renormalize (m : ℕ) (attn : T4) : T4 :=
  fun b h i j => attn b h i j / (1e-9 + ∑ j' ∈ Finset.range m, attn b h i j')

/-- Value semantics of `layers.Dropout(rate)` in training mode with an explicit Bernoulli
keep-mask: rate `0` returns the input unchanged (TensorFlow
short-circuits this case); otherwise kept entries are rescaled by
`1/(1-rate)` and dropped entries zeroed. -/
def dropout3 (rate : ℚ) (mask : Mask3) (x : T3) : T3 :=
  if rate = 0 then x
  else fun a i u => if mask a i u then x a i u / (1 - (rate : ℝ)) else 0

/-- Value semantics of `layers.Dropout(rate)` on a rank-4 tensor. -/
def dropout4 (rate : ℚ) (mask : Mask4) (x : T4) : T4 :=
  if rate = 0 then x
  else fun a h i u => if mask a h i u then x a h i u / (1 - (rate : ℝ)) else 0

/-- Value semantics of `layers.LayerNormalization(epsilon=1e-5)` over the last axis, whose
extent is `n`, with scale `gamma` and offset `beta`. -/
def layerNorm (n : ℕ) (gamma beta : ℕ → ℝ) (x : T3) : T3 :=
  fun a i c =>
    let mu := (∑ j ∈ Finset.range n, x a i j) / n
    let sigma2 := (∑ j ∈ Finset.range n, (x a i j - mu) ^ 2) / n
    gamma c * ((x a i c - mu) / Real.sqrt (sigma2 + 1e-5)) + beta c

/-- The Gauss error function, as used by the exact (non-approximate)
`tf.nn.gelu`. -/
def erf (z : ℝ) : ℝ :=
  (2 / Real.sqrt Real.pi) * ∫ t in (0 : ℝ)..z, Real.exp (-(t ^ 2))

/-- Value semantics of `tf.nn.gelu` (exact variant): `x/2 * (1 + erf(x / sqrt 2))`. -/
def gelu (x : ℝ) : ℝ := (x / 2) * (1 + erf (x / Real.sqrt 2))

/-- Element-wise `layers.add([x, y])`. -/
def addT3 (x y : T3) : T3 := fun a i c => x a i c + y a i c

/-- The learned parameters of one `external_attention` call: the
expansion `Dense(dim * dim_coefficient)`, the shared memories `M_k` and
`M_v`, and the final projection `Dense(dim)`. -/
structure EAWeights where
  W1 : ℕ → ℕ → ℝ
  b1 : ℕ → ℝ
  Wk : ℕ → ℕ → ℝ
  bk : ℕ → ℝ
  Wv : ℕ → ℕ → ℝ
  bv : ℕ → ℝ
  Wo : ℕ → ℕ → ℝ
  bo : ℕ → ℝ

/-- The dropout masks consumed by one `external_attention` call. -/
structure EANoise where
  attnMask : Mask4
  projMask : Mask3

/-- Value-level embedding of `external_attention(x, dim, num_heads,
dim_coefficient, attention_dropout, projection_dropout)`.

The `tf.reshape` to `(-1, num_patch, num_heads*dim_coefficient, w)` with
`w = dim*dim_coefficient // (num_heads*dim_coefficient)` followed by
`tf.transpose(perm=[0,2,1,3])` is the row-major index map
`(b, h, i, t) ↦ x (b, i, h*w + t)`, and the inverse transpose/reshape
pair at the end is `(b, i, c) ↦ x (b, c/w, i, c%w)`. -/
def externalAttentionV (num_patch dim num_heads dim_coefficient : ℕ)
    (attention_dropout projection_dropout : ℚ)
    (w : EAWeights) (noise : EANoise) (x : T3) : T3 :=
  let headWidth := mvUnits dim num_heads dim_coefficient
  let x1 := dense3 dim w.W1 w.b1 x
  let x2 : T4 := fun b h i t => x1 b i (h * headWidth + t)
  let attn := dense4 headWidth w.Wk w.bk x2
  let attn := softmaxAxis2 num_patch attn
  let attn := renormalize (dim / dim_coefficient) attn
  let attn := dropout4 attention_dropout noise.attnMask attn
  let x3 := dense4 (dim / dim_coefficient) w.Wv w.bv attn
  let x4 : T3 := fun b i c => x3 b (c / headWidth) i (c % headWidth)
  let x5 := dense3 (dim * dim_coefficient) w.Wo w.bo x4
  dropout3 projection_dropout noise.projMask x5

/-- The learned parameters of one `layers.MultiHeadAttention` call:
per-head query/key/value kernels and the output projection. -/
structure MHAWeights where
  Wq : ℕ → ℕ → ℕ → ℝ
  bq : ℕ → ℕ → ℝ
  Wk : ℕ → ℕ → ℕ → ℝ
  bk : ℕ → ℕ → ℝ
  Wv : ℕ → ℕ → ℕ → ℝ
  bv : ℕ → ℕ → ℝ
  Wo : ℕ → ℕ → ℕ → ℝ
  bo : ℕ → ℝ

/-- Value-level `layers.MultiHeadAttention(num_heads, key_dim,
dropout)(x, x)`: per-head affine projections of the input of width
`dim`, scaled dot-product scores, softmax over the key axis, dropout on
the attention probabilities (explicit mask), weighted sum of values, and
the output projection summing over heads. -/
def multiHeadAttentionV (num_patch dim num_heads key_dim : ℕ) (rate : ℚ)
    (w : MHAWeights) (mask : Mask4) (x : T3) : T3 :=
  let q : T4 := fun b h i u => (∑ j ∈ Finset.range dim, x b i j * w.Wq h j u) + w.bq h u
  let kk : T4 := fun b h i u => (∑ j ∈ Finset.range dim, x b i j * w.Wk h j u) + w.bk h u
  let v : T4 := fun b h i u => (∑ j ∈ Finset.range dim, x b i j * w.Wv h j u) + w.bv h u
  let sc : T4 := fun b h i i' =>
    (∑ u ∈ Finset.range key_dim, q b h i u * kk b h i' u) / Real.sqrt key_dim
  let probs : T4 := fun b h i i' =>
    Real.exp (sc b h i i') / ∑ i2 ∈ Finset.range num_patch, Real.exp (sc b h i i2)
  let probs := dropout4 rate mask probs
  let attnOut : T4 := fun b h i u =>
    ∑ i' ∈ Finset.range num_patch, probs b h i i' * v b h i' u
  fun b i c =>
    (∑ h ∈ Finset.range num_heads, ∑ u ∈ Finset.range key_dim,
      attnOut b h i u * w.Wo h u c) + w.bo c

/-- The learned parameters of one `mlp` call. -/
structure MLPWeights where
  W1 : ℕ → ℕ → ℝ
  b1 : ℕ → ℝ
  W2 : ℕ → ℕ → ℝ
  b2 : ℕ → ℝ

/-- The dropout masks consumed by one `mlp` call. -/
structure MLPNoise where
  m1 : Mask3
  m2 : Mask3

/-- Value-level `mlp(x, embedding_dim, mlp_dim, drop_rate)`:
`Dense(mlp_dim, activation=gelu)`, `Dropout`, `Dense(embedding_dim)`,
`Dropout`. -/
def mlpV (embedding_dim mlp_dim : ℕ) (drop_rate : ℚ) (w : MLPWeights)
    (noise : MLPNoise) (x : T3) : T3 :=
  let x1 : T3 := fun a i u =>
    gelu ((∑ j ∈ Finset.range embedding_dim, x a i j * w.W1 j u) + w.b1 u)
  let x1 := dropout3 drop_rate noise.m1 x1
  let x2 := dense3 mlp_dim w.W2 w.b2 x1
  dropout3 drop_rate noise.m2 x2

/-- The learned parameters of one `transformer_encoder` block. -/
structure EncoderWeights where
  ln1Gamma : ℕ → ℝ
  ln1Beta : ℕ → ℝ
  ea : EAWeights
  mha : MHAWeights
  ln2Gamma : ℕ → ℝ
  ln2Beta : ℕ → ℝ
  mlp : MLPWeights

/-- The dropout masks consumed by one `transformer_encoder` block. -/
structure EncoderNoise where
  ea : EANoise
  mhaMask : Mask4
  mlp : MLPNoise

/-- Value-level embedding of `transformer_encoder`.  The attention stage
is dispatched on the `attention_type` string by `if`/`elif` with no
`else`: any other string leaves the normalized `x` untouched.
`mlp_dropout` is the `drop_rate` parameter of `mlp` (the source call
site leaves it at its default `0.2`). -/
def transformerEncoderV (num_patch embedding_dim mlp_dim num_heads
    dim_coefficient : ℕ)
    (attention_dropout projection_dropout mlp_dropout : ℚ)
    (w : EncoderWeights) (noise : EncoderNoise) (attention_type : String)
    (x : T3) : T3 :=
  let residual1 := x
  let x1 := layerNorm embedding_dim w.ln1Gamma w.ln1Beta x
  let x2 :=
    if attention_type = "external_attention" then
      externalAttentionV num_patch embedding_dim num_heads dim_coefficient
        attention_dropout projection_dropout w.ea noise.ea x1
    else if attention_type = "self_attention" then
      multiHeadAttentionV num_patch embedding_dim num_heads embedding_dim
        attention_dropout w.mha noise.mhaMask x1
    else x1
  let x3 := addT3 x2 residual1
  let residual2 := x3
  let x4 := layerNorm embedding_dim w.ln2Gamma w.ln2Beta x3
  let x5 := mlpV embedding_dim mlp_dim mlp_dropout w.mlp noise.mlp x4
  addT3 x5 residual2

/-! ## Double-normalization: row sums and ordering (C3, C4) -/

/-- Concrete attention logits: patch 0 scores 0, every other patch
scores 60, in every column. -/
def spikeLogits : T4 := fun _ _ i _ => if i = 0 then 0 else 60

/-- Claim C3, amended. After the re-normalization step, the sum of a row
along the last axis equals `S / (1e-9 + S)`, where `S` is that row's
last-axis sum of the softmax output — strictly below `1`, and close to
`1` only when `S` is large relative to `1e-9`. -/
theorem renormalize_row_sum (N m : ℕ) (z : T4) (b h i : ℕ) :
    ∑ j ∈ Finset.range m, renormalize m (softmaxAxis2 N z) b h i j =
      (∑ j ∈ Finset.range m, softmaxAxis2 N z b h i j) /
        (1e-9 + ∑ j ∈ Finset.range m, softmaxAxis2 N z b h i j) := by
  unfold renormalize
  rw [← Finset.sum_div]

/-- Claim C3, counterexample. With two patches, one feature column, and
logits `0` and `60`, the softmax gives patch 0 the mass
`1/(1 + e^60) < 2^-60`; after the re-normalization its row sum is below
`1/1000`, nowhere near `1`. -/
theorem renormalized_row_sum_far_from_one :
    ∑ j ∈ Finset.range 1,
      renormalize 1 (softmaxAxis2 2 spikeLogits) 0 0 0 j < 1 / 1000 := by
  have h2 : (2 : ℝ) < Real.exp 1 := by
    have := Real.exp_one_gt_d9
    linarith
  have hexp : (2 : ℝ) ^ 60 ≤ Real.exp 60 := by
    calc (2 : ℝ) ^ 60 ≤ Real.exp 1 ^ 60 := by
          exact pow_le_pow_left₀ (by norm_num) h2.le 60
      _ = Real.exp 60 := by
          rw [← Real.exp_nat_mul]
          norm_num
  have hpos : (0 : ℝ) < Real.exp 60 := Real.exp_pos 60
  rw [Finset.sum_range_one]
  unfold renormalize softmaxAxis2 spikeLogits
  rw [Finset.sum_range_one]
  simp only [Finset.sum_range_succ, Finset.sum_range_zero, zero_add,
    reduceIte, Real.exp_zero]
  -- goal: 1 / (1 + exp 60) / (1e-9 + 1 / (1 + exp 60)) < 1 / 1000
  have hden : (0 : ℝ) < 1 + Real.exp 60 := by linarith
  have hS : (0 : ℝ) < 1 / (1 + Real.exp 60) := by positivity
  have hSle : 1 / (1 + Real.exp 60) ≤ 1 / (2 ^ 60 : ℝ) := by
    apply one_div_le_one_div_of_le (by norm_num)
    linarith
  have hstep : 1 / (1 + Real.exp 60) / (1e-9 + 1 / (1 + Real.exp 60)) ≤
      (1 / (2 ^ 60 : ℝ)) / 1e-9 := by
    apply div_le_div₀ (by positivity) hSle (by norm_num)
    linarith
  calc 1 / (1 + Real.exp 60) / (1e-9 + 1 / (1 + Real.exp 60)) ≤
        (1 / (2 ^ 60 : ℝ)) / 1e-9 := hstep
    _ < 1 / 1000 := by norm_num

/-- Concrete positive column scores realizing a softmax output directly:
`exp (log c) = c`. -/
def flipScores : ℕ → ℕ → ℝ := fun i j =>
  if i = 0 then (if j = 0 then 51 else 99) else (if j = 0 then 49 else 1)

/-- Logits whose softmax over the patch axis is
`[[51/100, 99/100], [49/100, 1/100]]`. -/
def flipLogits : T4 := fun _ _ i j => Real.log (flipScores i j)

lemma flipScores_pos (i j : ℕ) : 0 < flipScores i j := by
  unfold flipScores
  split <;> split <;> norm_num

lemma flipSoftmax (b h i j : ℕ) :
    softmaxAxis2 2 flipLogits b h i j =
      flipScores i j / (flipScores 0 j + flipScores 1 j) := by
  unfold softmaxAxis2 flipLogits
  rw [Finset.sum_range_succ, Finset.sum_range_one]
  simp only [show ∀ i j : ℕ, Real.exp (Real.log (flipScores i j)) = flipScores i j
    from fun i j => Real.exp_log (flipScores_pos i j)]

/-- Claim C4, counterexample. Along the patch (softmax) axis the
double-normalization can invert the ordering: with softmax output
`[[51/100, 99/100], [49/100, 1/100]]`, patch 0 beats patch 1 in column 0
(`51/100 > 49/100`), but after dividing each patch row by its own
last-axis sum (`3/2` resp. `1/2`, plus `1e-9`) patch 1 comes out larger. -/
theorem renormalize_reorders_patch_axis :
    softmaxAxis2 2 flipLogits 0 0 0 0 > softmaxAxis2 2 flipLogits 0 0 1 0 ∧
    renormalize 2 (softmaxAxis2 2 flipLogits) 0 0 0 0 <
      renormalize 2 (softmaxAxis2 2 flipLogits) 0 0 1 0 := by
  constructor
  · simp only [flipSoftmax]
    unfold flipScores
    norm_num
  · unfold renormalize
    simp only [Finset.sum_range_succ, Finset.sum_range_zero, flipSoftmax]
    unfold flipScores
    norm_num

/-- Claim C4, amended. Along the *last* axis the re-normalization is
order-preserving: within one patch row every entry is divided by the
same positive quantity `1e-9 + S`, so strict order among the softmax
scores is kept. -/
theorem renormalize_monotone_last_axis (N m : ℕ) (z : T4) (b h i j1 j2 : ℕ)
    (hlt : softmaxAxis2 N z b h i j1 < softmaxAxis2 N z b h i j2) :
    renormalize m (softmaxAxis2 N z) b h i j1 <
      renormalize m (softmaxAxis2 N z) b h i j2 := by
  unfold renormalize
  have hc : (0 : ℝ) < 1e-9 + ∑ j' ∈ Finset.range m, softmaxAxis2 N z b h i j' := by
    have hnn : (0 : ℝ) ≤ ∑ j' ∈ Finset.range m, softmaxAxis2 N z b h i j' := by
      apply Finset.sum_nonneg
      intro j' _
      unfold softmaxAxis2
      positivity
    norm_num
    linarith
  exact (div_lt_div_iff_of_pos_right hc).mpr hlt

/-- Witness for the amended C4 at the concrete softmax output
`[[51/100, 99/100], [49/100, 1/100]]`, row `i = 0`, columns `0 < 1`. -/
theorem renormalize_monotone_last_axis_witness :
    renormalize 2 (softmaxAxis2 2 flipLogits) 0 0 0 0 <
      renormalize 2 (softmaxAxis2 2 flipLogits) 0 0 0 1 :=
  renormalize_monotone_last_axis 2 2 flipLogits 0 0 0 0 1 (by
    simp only [flipSoftmax]
    unfold flipScores
    norm_num)

end

end EANet

namespace EANet

/-! ## Patch extraction (C5, C6) -/

section PatchExtraction

variable {α : Type*}

/-- Value semantics of `tf.image.extract_patches(images, sizes=(1,p,p,1), strides=(1,p,p,1),
rates=(1,1,1,1), padding="VALID")` on a batch of `H × W × C` images:
output element `(b, gi, gj, d)` is the pixel at row `gi*p + d/(p*C)`,
column `gj*p + (d/C) % p`, channel `d % C` — the depth axis enumerates
one patch's pixels row-major with channels innermost. -/
def extractPatches (p C : ℕ) (img : ℕ → ℕ → ℕ → ℕ → α) :
    ℕ → ℕ → ℕ → ℕ → α :=
  fun b gi gj d => img b (gi * p + d / (p * C)) (gj * p + d / C % p) (d % C)

/-- The flattened patch sequence produced by the `tf.reshape` in
`PatchExtract.call`: the merged sequence axis decodes row-major against
the source grid `(H/p, W/p)`. -/
def patchSeq (p W C : ℕ) (img : ℕ → ℕ → ℕ → ℕ → α) : ℕ → ℕ → ℕ → α :=
  fun b s d => extractPatches p C img b (s / (W / p)) (s % (W / p)) d

/-- Embedding of `PatchExtract.call` on a batch of `B` images of shape `H × W × C`:
`tf.image.extract_patches` followed by `tf.reshape(patches, (batch_size,
patch_num * patch_num, patch_dim))`, where `patch_num = H // p` is read
off axis 1 alone; the reshape raises an error (`none`) unless the
element counts agree. -/
def patchExtractCall (p B H W C : ℕ) (img : ℕ → ℕ → ℕ → ℕ → α) :
    Option (ℕ → ℕ → ℕ → α) :=
  if B * (H / p * (W / p * (p * p * C))) =
      B * (H / p * (H / p * (p * p * C))) then
    some (patchSeq p W C img)
  else none

/-- Modelled from the spec (the reassembly of C5): place sequence
element `s = gi * (W/p) + gj` at grid cell `(gi, gj)`, and depth element
`d = pi * (p*C) + pj * C + c` at pixel `(pi, pj)` of that patch,
channel `c`. -/
def reassemble (p W C : ℕ) (seq : ℕ → ℕ → ℕ → α) : ℕ → ℕ → ℕ → ℕ → α :=
  fun b i j c =>
    seq b (i / p * (W / p) + j / p) (i % p * (p * C) + j % p * C + c)

/-- Shape-level `PatchExtract.call`: the patches tensor has shape
`[B, H/p, W/p, p*p*C]` and the reshape targets
`(batch_size, (H/p)^2, p*p*C)`. -/
def patchExtractShape (p B H W C : ℕ) : Option (List ℕ) :=
  if B * (H / p * (W / p * (p * p * C))) =
      B * (H / p * (H / p * (p * p * C))) then
    some [B, H / p * (H / p), p * p * C]
  else none

/-- A concrete `ℕ`-valued test image with distinct pixel values. -/
def natImage : ℕ → ℕ → ℕ → ℕ → ℕ := fun _ i j c => 100 * i + 10 * j + c

/-- The all-zero `ℕ`-valued image. -/
def zeroImage : ℕ → ℕ → ℕ → ℕ → ℕ := fun _ _ _ _ => 0

/-- Claim C5, amended. For *square* images `n × n × C` with `p ∣ n`,
`PatchExtract` succeeds and is inverted by the row-major reassembly:
every in-range pixel is reconstructed exactly. -/
theorem patch_extract_reconstructs_square (p n C B : ℕ)
    (img : ℕ → ℕ → ℕ → ℕ → α) (hp : 0 < p) (hdvd : p ∣ n) (b i j c : ℕ)
    (hi : i < n) (hj : j < n) (hc : c < C) :
    patchExtractCall p B n n C img = some (patchSeq p n C img) ∧
    reassemble p n C (patchSeq p n C img) b i j c = img b i j c := by
  refine ⟨by unfold patchExtractCall; rw [if_pos rfl], ?_⟩
  have hC : 0 < C := by omega
  have hg : 0 < n / p := Nat.div_pos (Nat.le_of_dvd (by omega) hdvd) hp
  have hjp : j / p < n / p := Nat.div_lt_div_of_lt_of_dvd hdvd hj
  have hip : i % p < p := Nat.mod_lt i hp
  have hjq : j % p < p := Nat.mod_lt j hp
  unfold reassemble patchSeq extractPatches
  have h1 : (i / p * (n / p) + j / p) / (n / p) = i / p := by
    rw [show i / p * (n / p) + j / p = n / p * (i / p) + j / p by ring,
      Nat.mul_add_div hg, Nat.div_eq_of_lt hjp, add_zero]
  have h2 : (i / p * (n / p) + j / p) % (n / p) = j / p := by
    rw [show i / p * (n / p) + j / p = n / p * (i / p) + j / p by ring,
      Nat.mul_add_mod, Nat.mod_eq_of_lt hjp]
  have hlt1 : j % p * C + c < p * C := by
    have hle : j % p * C + C ≤ p * C := by
      calc j % p * C + C = (j % p + 1) * C := by ring
        _ ≤ p * C := Nat.mul_le_mul_right C (by omega)
    omega
  have hd1 : (i % p * (p * C) + j % p * C + c) / (p * C) = i % p := by
    rw [show i % p * (p * C) + j % p * C + c =
      p * C * (i % p) + (j % p * C + c) by ring,
      Nat.mul_add_div (by positivity), Nat.div_eq_of_lt hlt1, add_zero]
  have hd2 : (i % p * (p * C) + j % p * C + c) / C % p = j % p := by
    rw [show i % p * (p * C) + j % p * C + c =
      C * (i % p * p + j % p) + c by ring,
      Nat.mul_add_div hC, Nat.div_eq_of_lt hc, add_zero,
      show i % p * p + j % p = p * (i % p) + j % p by ring,
      Nat.mul_add_mod, Nat.mod_eq_of_lt hjq]
  have hd3 : (i % p * (p * C) + j % p * C + c) % C = c := by
    rw [show i % p * (p * C) + j % p * C + c =
      C * (i % p * p + j % p) + c by ring,
      Nat.mul_add_mod, Nat.mod_eq_of_lt hc]
  rw [h1, h2, hd1, hd2, hd3]
  rw [show i / p * p + i % p = i by
      calc i / p * p + i % p = p * (i / p) + i % p := by ring
        _ = i := Nat.div_add_mod i p,
    show j / p * p + j % p = j by
      calc j / p * p + j % p = p * (j / p) + j % p := by ring
        _ = j := Nat.div_add_mod j p]

/-- Witness for the amended C5 at `p = 2`, a `4 × 4 × 1` image, pixel
`(3, 2, 0)`. -/
theorem patch_extract_reconstructs_square_witness :
    patchExtractCall 2 1 4 4 1 natImage = some (patchSeq 2 4 1 natImage) ∧
    reassemble 2 4 1 (patchSeq 2 4 1 natImage) 0 3 2 0 = natImage 0 3 2 0 :=
  patch_extract_reconstructs_square 2 4 1 1 natImage (by decide) (by decide)
    0 3 2 0 (by decide) (by decide) (by decide)

/-- Claim C5, counterexample. A `2 × 4 × 1` image has both dimensions
divisible by `patch_size = 2`, yet `PatchExtract` does not produce any
patch sequence: the reshape to `(batch_size, patch_num ** 2, patch_dim)`
with `patch_num = H // p = 1` needs `1 · 1 · 1 · 4 = 4` elements while
the patches tensor has `1 · 1 · 2 · 4 = 8`, so the call errors out and
no reassembly can reconstruct the image. -/
theorem patch_extract_fails_non_square :
    patchExtractCall 2 1 2 4 1 zeroImage = none := rfl

/-- Claim C6, amended. For every *square* `n × n × C` image (in a batch of
any size `B`), `PatchExtract` returns a patch sequence of length
`(n/p) · (n/p)` whose elements have dimension `p² · C`; for non-square
inputs the reshape (which squares `patch_num = H // p`) can fail
instead. -/
theorem patch_extract_shape_square (p B n C : ℕ) :
    patchExtractShape p B n n C = some [B, n / p * (n / p), p * p * C] := by
  unfold patchExtractShape
  rw [if_pos rfl]

/-- Claim C6, counterexample. On a `2 × 6 × 1` image with `patch_size = 2`
— height and width both exactly divisible — `PatchExtract` does not
return a sequence of length `(H/p) · (W/p) = 3`: the reshape fails
(`1 · 1 · 3 · 4 = 12` elements cannot fill `(batch, 1, 4)`), so the call
raises an error instead. -/
theorem patch_extract_shape_non_square :
    patchExtractShape 2 1 2 6 1 = none := by decide

end PatchExtraction

end EANet

namespace EANet

/-! ## Transformer block shapes (C8, C10) -/

/-- Claim C8. `transformer_encoder` is a shape-preserving transform under
both selectable attention variants: for every valid input sequence of
shape `(N, e)` (positive dimensions, `H ∣ e`), the output shape equals
the input shape whether `attention_type` is `"external_attention"` or
`"self_attention"`; in particular a 256-patch sequence with
`embedding_dim = 64` through one block returns a `256 × 64` tensor. -/
theorem transformer_encoder_preserves_shape (B N e mlpDim H k : ℕ)
    (hN : 0 < N) (he : 0 < e) (hH : 0 < H) (hk : 0 < k) (hdvd : H ∣ e) :
    (transformerEncoderShape B N e mlpDim H k "external_attention" =
        some [B, N, e] ∧
      transformerEncoderShape B N e mlpDim H k "self_attention" =
        some [B, N, e]) ∧
    transformerEncoderShape 1 256 64 64 4 4 "external_attention" =
      some [1, 256, 64] := by
  refine ⟨⟨?_, ?_⟩, ?_⟩
  · simp only [transformerEncoderShape, reduceIte]
    rw [externalAttentionShape_of_dvd B N e H k hN he hH hk hdvd,
      Option.some_bind,
      show addShape [B, N, e] [B, N, e] = some [B, N, e] from if_pos rfl,
      Option.some_bind,
      show mlpShape e mlpDim [B, N, e] = [B, N, e] from rfl,
      show addShape [B, N, e] [B, N, e] = some [B, N, e] from if_pos rfl,
      Option.some_bind]
  · simp only [transformerEncoderShape, String.reduceEq, reduceIte]
    rw [show mhaShape [B, N, e] = [B, N, e] from rfl,
      Option.some_bind,
      show addShape [B, N, e] [B, N, e] = some [B, N, e] from if_pos rfl,
      Option.some_bind,
      show mlpShape e mlpDim [B, N, e] = [B, N, e] from rfl,
      show addShape [B, N, e] [B, N, e] = some [B, N, e] from if_pos rfl,
      Option.some_bind]
  · decide

/-- Witness for C8 at the notebook configuration: 256 patches,
`embedding_dim = 64`, `mlp_dim = 64`, 4 heads, coefficient 4. -/
theorem transformer_encoder_preserves_shape_witness :
    transformerEncoderShape 1 256 64 64 4 4 "external_attention" =
      some [1, 256, 64] ∧
    transformerEncoderShape 1 256 64 64 4 4 "self_attention" =
      some [1, 256, 64] :=
  (transformer_encoder_preserves_shape 1 256 64 64 4 4 (by decide)
    (by decide) (by decide) (by decide) (by decide)).1

/-- Claim C10. Called with any `attention_type` other than
`"external_attention"` or `"self_attention"`, `transformer_encoder`
raises no error and silently skips the attention stage: the output shape
still equals the input shape, and the block degenerates to the
residual-add of the layer-normalized input followed by the normalized
MLP sub-block (with its residual-add). -/
theorem transformer_encoder_unknown_attention_type (t : String) :
    t = "external_attention" ∨ t = "self_attention" ∨
    ((∀ B N e mlpDim H k : ℕ,
        transformerEncoderShape B N e mlpDim H k t = some [B, N, e]) ∧
      (∀ (N e m H k : ℕ) (ad pd md : ℚ) (w : EncoderWeights)
          (noise : EncoderNoise) (x : T3),
        transformerEncoderV N e m H k ad pd md w noise t x =
          addT3
            (mlpV e m md w.mlp noise.mlp
              (layerNorm e w.ln2Gamma w.ln2Beta
                (addT3 (layerNorm e w.ln1Gamma w.ln1Beta x) x)))
            (addT3 (layerNorm e w.ln1Gamma w.ln1Beta x) x))) := by
  by_cases h1 : t = "external_attention"
  · exact Or.inl h1
  by_cases h2 : t = "self_attention"
  · exact Or.inr (Or.inl h2)
  refine Or.inr (Or.inr ⟨fun B N e mlpDim H k => ?_, fun N e m H k ad pd md w noise x => ?_⟩)
  · simp only [transformerEncoderShape, if_neg h1, if_neg h2]
    rw [Option.some_bind,
      show addShape [B, N, e] [B, N, e] = some [B, N, e] from if_pos rfl,
      Option.some_bind,
      show mlpShape e mlpDim [B, N, e] = [B, N, e] from rfl,
      show addShape [B, N, e] [B, N, e] = some [B, N, e] from if_pos rfl,
      Option.some_bind]
  · simp only [transformerEncoderV, if_neg h1, if_neg h2]

end EANet

namespace EANet

/-! ## The full forward pass and determinism (C9)

`get_model` composes: `data_augmentation` (whose only layer active
outside training is the adapted `Normalization`; the random
flip/rotation/contrast/zoom layers are identity at inference),
`PatchExtract`, `PatchEmbedding`, `num_transformer_blocks` transformer
blocks, `GlobalAvgPool1D` and the softmax classification head.  The
`Dropout` layers are the stochastic elements under study: they are kept
in training mode, with their Bernoulli masks passed explicitly. -/

noncomputable section

/-- Value semantics of `layers.Normalization()` adapted to the training set: per-channel
standardization by the stored mean and variance. -/
def normalizationV (mean var : ℕ → ℝ) (img : ℕ → ℕ → ℕ → ℕ → ℝ) :
    ℕ → ℕ → ℕ → ℕ → ℝ :=
  fun b i j c => (img b i j c - mean c) / Real.sqrt (var c)

/-- Embedding of `PatchEmbedding.call`: `Dense(embed_dim)` applied to each patch
vector of width `patch_dim`, plus the learned positional embedding for
positions `0, …, num_patch - 1` (`pos_embed(tf.range(num_patch))`, so
the vector added at sequence index `s` is table row `s`). -/
def patchEmbeddingV (patch_dim : ℕ) (projW : ℕ → ℕ → ℝ) (projB : ℕ → ℝ)
    (posEmbed : ℕ → ℕ → ℝ) (patch : T3) : T3 :=
  fun b s u =>
    ((∑ j ∈ Finset.range patch_dim, patch b s j * projW j u) + projB u) +
      posEmbed s u

/-- Value semantics of `layers.GlobalAvgPool1D()`: mean over the patch axis of extent `N`. -/
def globalAvgPool1D (N : ℕ) (x : T3) : ℕ → ℕ → ℝ :=
  fun b u => (∑ s ∈ Finset.range N, x b s u) / N

/-- The classification head `layers.Dense(num_classes,
activation="softmax")` on a pooled feature vector of width `din`. -/
def denseSoftmax (din num_classes : ℕ) (W : ℕ → ℕ → ℝ) (bias : ℕ → ℝ)
    (x : ℕ → ℕ → ℝ) : ℕ → ℕ → ℝ :=
  fun b c =>
    Real.exp ((∑ j ∈ Finset.range din, x b j * W j c) + bias c) /
      ∑ c' ∈ Finset.range num_classes,
        Real.exp ((∑ j ∈ Finset.range din, x b j * W j c') + bias c')

/-- The learned parameters of the whole model. -/
structure ModelWeights where
  normMean : ℕ → ℝ
  normVar : ℕ → ℝ
  projW : ℕ → ℕ → ℝ
  projB : ℕ → ℝ
  posEmbed : ℕ → ℕ → ℝ
  blocks : ℕ → EncoderWeights
  headW : ℕ → ℕ → ℝ
  headB : ℕ → ℝ

/-- The dropout masks consumed by one forward pass of the whole model. -/
structure ModelNoise where
  blocks : ℕ → EncoderNoise

/-- The loop `for _ in range(num_transformer_blocks): x =
transformer_encoder(x, ...)`: each iteration applies a fresh block with
its own weights and masks. -/
def encoderStack (num_patch embedding_dim mlp_dim num_heads
    dim_coefficient : ℕ)
    (attention_dropout projection_dropout mlp_dropout : ℚ)
    (w : ℕ → EncoderWeights) (noise : ℕ → EncoderNoise)
    (attention_type : String) : ℕ → T3 → T3
  | 0, x => x
  | Nat.succ c, x =>
      transformerEncoderV num_patch embedding_dim mlp_dim num_heads
        dim_coefficient attention_dropout projection_dropout mlp_dropout
        (w c) (noise c) attention_type
        (encoderStack num_patch embedding_dim mlp_dim num_heads
          dim_coefficient attention_dropout projection_dropout mlp_dropout
          w noise attention_type c x)

/-- Embedding of `get_model(attention_type="external_attention")`, value level: the
forward pass as a function of the weights, the input image and the
dropout masks.  The `PatchExtract` reshape succeeds on the square
`input_size × input_size` input, giving the patch sequence `patchSeq`. -/
def eanetForward (patch_size input_size channels embedding_dim mlp_dim
    num_heads dim_coefficient num_blocks num_classes : ℕ)
    (attention_dropout projection_dropout mlp_dropout : ℚ)
    (w : ModelWeights) (noise : ModelNoise) (img : ℕ → ℕ → ℕ → ℕ → ℝ) :
    ℕ → ℕ → ℝ :=
  let num_patches := input_size / patch_size * (input_size / patch_size)
  let patch_dim := patch_size * patch_size * channels
  let x0 := normalizationV w.normMean w.normVar img
  let x1 := patchSeq patch_size input_size channels x0
  let x2 := patchEmbeddingV patch_dim w.projW w.projB w.posEmbed x1
  let x3 := encoderStack num_patches embedding_dim mlp_dim num_heads
      dim_coefficient attention_dropout projection_dropout mlp_dropout
      w.blocks noise.blocks "external_attention" num_blocks x2
  denseSoftmax embedding_dim num_classes w.headW w.headB
    (globalAvgPool1D num_patches x3)

/-! ### Dropout with rate zero ignores its mask -/

lemma dropout3_zero (mask : Mask3) (x : T3) : dropout3 0 mask x = x :=
  if_pos rfl

lemma dropout4_zero (mask : Mask4) (x : T4) : dropout4 0 mask x = x :=
  if_pos rfl

lemma transformerEncoderV_noise_free (np e m H k : ℕ)
    (w : EncoderWeights) (n1 n2 : EncoderNoise) (t : String) (x : T3) :
    transformerEncoderV np e m H k 0 0 0 w n1 t x =
      transformerEncoderV np e m H k 0 0 0 w n2 t x := by
  simp only [transformerEncoderV, externalAttentionV, multiHeadAttentionV,
    mlpV, dropout3_zero, dropout4_zero]

lemma encoderStack_noise_free (np e m H k : ℕ) (w : ℕ → EncoderWeights)
    (na nb : ℕ → EncoderNoise) (t : String) (c : ℕ) (x : T3) :
    encoderStack np e m H k 0 0 0 w na t c x =
      encoderStack np e m H k 0 0 0 w nb t c x := by
  induction c with
  | zero => rfl
  | succ c ih =>
      simp only [encoderStack]
      rw [ih]
      exact transformerEncoderV_noise_free np e m H k (w c) (na c) (nb c) t _

/-- Claim C9. With all dropout rates set to zero, the forward pass is a
deterministic function of the weights and the input: its value does not
depend on the dropout masks, so two runs with the same fixed weights and
input produce identical outputs. -/
theorem forward_pass_deterministic_without_dropout
    (patch_size input_size channels embedding_dim mlp_dim num_heads
      dim_coefficient num_blocks num_classes : ℕ)
    (w : ModelWeights) (n1 n2 : ModelNoise) (img : ℕ → ℕ → ℕ → ℕ → ℝ) :
    eanetForward patch_size input_size channels embedding_dim mlp_dim
        num_heads dim_coefficient num_blocks num_classes 0 0 0 w n1 img =
      eanetForward patch_size input_size channels embedding_dim mlp_dim
        num_heads dim_coefficient num_blocks num_classes 0 0 0 w n2 img := by
  unfold eanetForward
  exact congrArg
    (fun y => denseSoftmax embedding_dim num_classes w.headW w.headB
      (globalAvgPool1D (input_size / patch_size * (input_size / patch_size)) y))
    (encoderStack_noise_free _ _ _ _ _ _ _ _ _ _ _)

end

end EANet
